import Mathlib

set_option maxHeartbeats 1000000

namespace SheetsSave

/-! Shallow embedding of the sheets-uploader core (src/sheets/app.go):
    the CSV encoder (`Config.makeCSV`, `blank`, `deferClose`), the per-sheet
    upload unit (`Config.uploadSheet`, the checksum skip check), the
    worker-pool dispatch loop of `Config.Exec`, and the spec-only
    post-pipeline notifier.  Pure functions are translated to Lean
    functions; the concurrent dispatch loop becomes a labelled transition
    system over an explicit scheduler state. -/

/-- One spreadsheet cell (`spreadsheet.Cell`); the core reads only its
    `Value` string field. -/
structure Cell where
  value : String
deriving Repr, DecidableEq

/-- Go `error` values as they appear in the core: a leaf message, or an
    error wrapped by `fmt.Errorf("<tag>: %v", err)`. -/
inductive GoErr where
  | msg (s : String)
  | wrapped (tag : String) (e : GoErr)
deriving Repr, DecidableEq

/-- `blank` (src/sheets/app.go:255-262): a CSV record is blank when every
    field is the empty string.  Mirrors the loop
    `for _, s := range record { if s != "" { return false } }; return true`. -/
def blank : List String → Bool
  | [] => true
  | s :: rest => if s ≠ "" then false else blank rest

/-- `deferClose` (src/sheets/app.go:264-269): combine the error already
    captured by the enclosing function (`*err`) with the error returned by
    the deferred release call (`f()`).  `newErr` is promoted, wrapped as
    "problem closing", only when no earlier error exists. -/
def deferClose (err : Option GoErr) (newErr : Option GoErr) : Option GoErr :=
  match err, newErr with
  | none, some e => some (GoErr.wrapped ("problem closing") e)
  | _, _ => err

/-! The CSV wire format produced by Go's `encoding/csv` writer (the
    external collaborator used by `makeCSV`), with the default comma
    delimiter, specialised to the two line-ending modes the code exposes. -/

/-- The Latin-1 part of Go's `unicode.IsSpace`, used by
    `encoding/csv.fieldNeedsQuotes` on the first rune of a field. -/
def goIsSpace (c : Char) : Bool :=
  c = ' ' || c = '\t' || c = '\n' || c = '\x0B' || c = '\x0C' || c = '\r' ||
    c = '\x85' || c = '\xA0'

/-- `encoding/csv` `fieldNeedsQuotes` with the default comma delimiter. -/
def fieldNeedsQuotes (field : String) : Bool :=
  if field = "" then false
  else if field = "\\." then true
  else if field.any (fun c => c = ',' || c = '"' || c = '\r' || c = '\n') then true
  else
    match field.data with
    | [] => false
    | c :: _ => goIsSpace c

/-- Encoding of one character inside a quoted CSV field
    (`encoding/csv` `Writer.Write`, quoted branch). -/
def encodeQuotedChar (useCRLF : Bool) (c : Char) : String :=
  if c = '"' then "\"\""
  else if c = '\r' then (if useCRLF then "" else "\r")
  else if c = '\n' then (if useCRLF then "\r\n" else "\n")
  else String.singleton c

/-- Concatenation of a list of strings, in order. -/
def strConcat : List String → String
  | [] => ""
  | s :: rest => s ++ strConcat rest

/-- Encoding of one CSV field: quoted (with per-character escaping) when
    `fieldNeedsQuotes` holds, verbatim otherwise. -/
def encodeField (useCRLF : Bool) (field : String) : String :=
  if fieldNeedsQuotes field then
    "\"" ++ strConcat (field.data.map (encodeQuotedChar useCRLF)) ++ "\""
  else field

/-- Record terminator: `\r\n` when `UseCRLF`, else `\n`. -/
def lineTerminator (useCRLF : Bool) : String :=
  if useCRLF then "\r\n" else "\n"

/-- One CSV record as emitted by `encoding/csv` `Writer.Write`: encoded
    fields joined by commas, then the line terminator. -/
def writeRecord (useCRLF : Bool) (record : List String) : String :=
  String.intercalate ("," : String) (record.map (encodeField useCRLF)) ++
    lineTerminator useCRLF

/-- The record extracted from a row of cells
    (src/sheets/app.go:240-243: `record = append(record, cell.Value)`). -/
def recordOf (row : List Cell) : List String :=
  row.map Cell.value

/-- The sink underlying the buffered CSV writer, abstracted: `writeErr n`
    is the error the `n`-th record write returns (the buffered writer's
    error is sticky, so the loop stops at the first failure).  In
    `Config.makeCSV` the sink is an in-memory `bytes.Buffer`, which never
    fails (`noFailSink`). -/
structure Sink where
  writeErr : Nat → Option GoErr

/-- The `bytes.Buffer` sink used by `Config.makeCSV`: writes never fail. -/
def noFailSink : Sink :=
  ⟨fun _ => none⟩

/-- The row loop of `Config.makeCSV` (src/sheets/app.go:239-252): build
    the record of each row, skip it when `blank`, otherwise write it; an
    error from `w.Write` is returned at once (early exit). -/
def csvLoopG (sink : Sink) (useCRLF : Bool) :
    List (List Cell) → Nat → String → Option GoErr × String
  | [], _, acc => (none, acc)
  | row :: rest, idx, acc =>
    let record := recordOf row
    if blank record then csvLoopG sink useCRLF rest idx acc
    else
      match sink.writeErr idx with
      | some e => (some e, acc)
      | none => csvLoopG sink useCRLF rest (idx + 1) (acc ++ writeRecord useCRLF record)

/-- The value `err` of the `Config.makeCSV` body before the deferred
    calls run, together with the bytes accumulated in the buffer. -/
def csvBody (sink : Sink) (useCRLF : Bool) (rows : List (List Cell)) :
    Option GoErr × String :=
  csvLoopG sink useCRLF rows 0 ""

/-- What `w.Error()` reports when the deferred `deferClose(&err, w.Error)`
    runs: the sticky error of the buffered writer, i.e. the first record
    write failure (the final `w.Flush()` is deferred first and therefore
    runs after `deferClose`, so its error is not visible here). -/
def wError (sink : Sink) (useCRLF : Bool) (rows : List (List Cell)) : Option GoErr :=
  (csvBody sink useCRLF rows).1

/-- `Config.makeCSV` (src/sheets/app.go:232-253) over an abstract sink:
    `buf.Reset()` discards `bufPrev` (the buffer's previous contents),
    the row loop runs, and on every exit path the deferred
    `deferClose(&err, w.Error)` combines the body's error with the
    writer's sticky error. -/
def makeCSVG (sink : Sink) (useCRLF : Bool) (bufPrev : String)
    (rows : List (List Cell)) : Option GoErr × String :=
  let _ := bufPrev
  let body := csvBody sink useCRLF rows
  (deferClose body.1 (wError sink useCRLF rows), body.2)

/-- `Config.makeCSV` as the code runs it: the sink is a `bytes.Buffer`,
    whose writes never fail. -/
def makeCSV (useCRLF : Bool) (bufPrev : String) (rows : List (List Cell)) :
    Option GoErr × String :=
  makeCSVG noFailSink useCRLF bufPrev rows

/-- The list of encoded CSV records emitted by the `makeCSV` row loop, in
    input order: blank rows contribute nothing, every other row exactly
    one record. -/
def csvRecords (useCRLF : Bool) : List (List Cell) → List String
  | [] => []
  | row :: rest =>
    if blank (recordOf row) then csvRecords useCRLF rest
    else writeRecord useCRLF (recordOf row) :: csvRecords useCRLF rest

/-! The per-sheet upload unit (`Config.uploadSheet`, src/sheets/app.go:199-230).
    External collaborators are abstracted exactly at their call sites: the
    filename template render (`ft.Execute`), the store attribute lookup
    (`b.Attributes`, which yields either an error or attributes whose MD5
    may be absent), the MD5 digest (`h.Write`/`h.Sum`, an opaque function
    of the payload bytes; `hash.Hash` writes never fail), and the store
    write (`b.WriteAll`). -/

/-- Result of `b.Attributes(ctx, fullpath)`: a lookup error, or
    attributes carrying an optional MD5 checksum (`attrs.MD5`). -/
inductive Lookup where
  | failed (e : GoErr)
  | found (md5 : Option (List Nat))
deriving Repr, DecidableEq

/-- Outcome of one sheet task that did not fail. -/
inductive TaskOutcome where
  | skipped
  | written
deriving Repr, DecidableEq

/-- The skip decision of `Config.uploadSheet` (src/sheets/app.go:212-223):
    skip exactly when the attribute lookup succeeded (`err == nil`), the
    attributes carry a checksum (`attrs.MD5 != nil`), and the digest of the
    payload equals it. -/
def shouldSkip (digest : String → List Nat) (lk : Lookup) (payload : String) : Bool :=
  match lk with
  | Lookup.failed _ => false
  | Lookup.found none => false
  | Lookup.found (some m) => digest payload == m

/-- `Config.uploadSheet` (src/sheets/app.go:199-230): render the file
    name, encode the rows (`makeCSV`), run the skip check, and write when
    not skipped.  A lookup failure is only tested with `err == nil` and is
    never returned: control falls through to the write. -/
def uploadSheet (digest : String → List Nat) (renderRes : Except GoErr String)
    (useCRLF : Bool) (bufPrev : String) (rows : List (List Cell))
    (lk : Lookup) (writeRes : Option GoErr) : Except GoErr TaskOutcome :=
  match renderRes with
  | Except.error e => Except.error (GoErr.wrapped ("could not use file path template") e)
  | Except.ok _file =>
    match makeCSV useCRLF bufPrev rows with
    | (some e, _) => Except.error e
    | (none, payload) =>
      if shouldSkip digest lk payload then Except.ok TaskOutcome.skipped
      else
        match writeRes with
        | some e => Except.error e
        | none => Except.ok TaskOutcome.written

/-! The post-pipeline notifier.  Modelled from the spec: the CDN
    invalidation code (spec §4.6, README feature "Automatic CloudFront CDN
    invalidation", flag `-dist`) is not among the source files under src/;
    only the spec describes it. -/

/-- Modelled from the spec: §4.6 "Normalizes each path to begin with a
    single leading separator"; §8 "input path `reports/Q1.csv` becomes
    `/reports/Q1.csv` (leading separator added) before escaping". -/
def normalizeInvalidationPath (p : String) : String :=
  if p.data.head? = some '/' then p else "/" ++ p

/-- Modelled from the spec: §4.6 contract
    `notify(changedPaths, distributionTarget) -> (invalidationID, error)`,
    "invoked only if `changedPaths` is non-empty and `distributionTarget`
    is configured"; each path is normalized and then escaped (`escape` is
    the opaque percent-encoding collaborator).  `none` means the external
    invalidation call is not made; `some batch` is the one batched request. -/
def notify (changedPaths : List String) (distTarget : Option String)
    (escape : String → String) : Option (List String) :=
  match distTarget with
  | none => none
  | some _ =>
    match changedPaths with
    | [] => none
    | p :: rest => some ((p :: rest).map (fun q => escape (normalizeInvalidationPath q)))

/-! The worker-pool dispatch loop of `Config.Exec`
    (src/sheets/app.go:147-196), as a labelled transition system.

    Sheets are identified by their position in `doc.Sheets` (the `i`-th
    dispatched sheet is sheet `i`, since the loop always hands off the
    head of the remaining list).  `outcome t` abstracts what
    `c.uploadSheet` returns for sheet `t`.  The channels `sheetCh` and
    `errCh` are unbuffered, so a hand-off and a result collection are
    each one rendezvous step.  `ctx.Done()` is the shared cancellation
    signal (`done`); note that the dispatch loop's `select` has no
    `ctx.Done()` case and `sheetCh` is never closed. -/

/-- A worker goroutine (src/sheets/app.go:156-175): waiting on the
    `select` (`idle`), running `c.uploadSheet` for sheet `t` (`busy`),
    blocked sending the task's result on `errCh` (`sending`), or
    returned (`exited`, via the `ctx.Done()` case). -/
inductive WStatus where
  | idle
  | busy (t : Nat)
  | sending (t : Nat) (res : Option GoErr)
  | exited
deriving Repr, DecidableEq

/-- State of one run of the dispatch loop: `remaining` is `doc.Sheets`
    (by index), `waitingOn` the outstanding-task counter, `workers` the
    pool, `done` whether `ctx.Done()` has fired, and `result = some r`
    once the loop has returned `r` to the caller (`r = none` is the
    normal `return nil`).  `dispatched` and `collected` are ghost
    counters of hand-offs and collected results. -/
structure SchedState where
  remaining : List Nat
  dispatched : Nat
  waitingOn : Nat
  collected : Nat
  workers : List WStatus
  done : Bool
  result : Option (Option GoErr)
deriving Repr, DecidableEq

/-- Initial state for `k` sheets and `n` workers: all workers parked on
    the `select`, nothing dispatched.  With `k = 0` the loop guard
    `len(doc.Sheets) > 0 || waitingOn > 0` is false at once and the loop
    returns `nil` without a single iteration. -/
def initState (k n : Nat) : SchedState :=
  { remaining := List.range k
    dispatched := 0
    waitingOn := 0
    collected := 0
    workers := List.replicate n WStatus.idle
    done := false
    result := if k = 0 then some none else none }

/-- Task outcome map of a run in which no upload fails. -/
def noFail : Nat → Option GoErr :=
  fun _ => none

/-- Program transitions of the running pipeline.
    `dispatch`: the loop's `case workCh <- sheet` rendezvous with an idle
    worker (src/sheets/app.go:186-188) — enabled whenever the loop is
    still running and sheets remain, even after cancellation, because the
    worker's `select` chooses freely between a ready `sheetCh` receive
    and `ctx.Done()`.
    `compute`: a busy worker finishes `c.uploadSheet` and moves to the
    blocking `errCh` send (line 169).
    `collectOk`/`collectErr`: the loop's `case err := <-errCh`
    (lines 189-193): decrement `waitingOn`; a non-nil error is returned
    immediately; otherwise the loop guard is re-checked and the loop
    returns `nil` exactly when no sheets remain and nothing is
    outstanding.
    `workerExit`: an idle worker takes the `ctx.Done()` case (line 171). -/
inductive ProgStep (outcome : Nat → Option GoErr) : SchedState → SchedState → Prop where
  | dispatch (s : SchedState) (i t : Nat) (rest : List Nat)
      (hres : s.result = none) (hrem : s.remaining = t :: rest)
      (hw : s.workers.get? i = some WStatus.idle) :
      ProgStep outcome s
        { s with remaining := rest
                 dispatched := s.dispatched + 1
                 waitingOn := s.waitingOn + 1
                 workers := s.workers.set i (WStatus.busy t) }
  | compute (s : SchedState) (i t : Nat)
      (hw : s.workers.get? i = some (WStatus.busy t)) :
      ProgStep outcome s
        { s with workers := s.workers.set i (WStatus.sending t (outcome t)) }
  | collectOk (s : SchedState) (i t : Nat)
      (hres : s.result = none)
      (hw : s.workers.get? i = some (WStatus.sending t none)) :
      ProgStep outcome s
        { s with workers := s.workers.set i WStatus.idle
                 waitingOn := s.waitingOn - 1
                 collected := s.collected + 1
                 result := if s.remaining = [] ∧ s.waitingOn - 1 = 0
                           then some none else none }
  | collectErr (s : SchedState) (i t : Nat) (e : GoErr)
      (hres : s.result = none)
      (hw : s.workers.get? i = some (WStatus.sending t (some e))) :
      ProgStep outcome s
        { s with workers := s.workers.set i WStatus.idle
                 waitingOn := s.waitingOn - 1
                 collected := s.collected + 1
                 result := some (some e) }
  | workerExit (s : SchedState) (i : Nat)
      (hdone : s.done = true)
      (hw : s.workers.get? i = some WStatus.idle) :
      ProgStep outcome s
        { s with workers := s.workers.set i WStatus.exited }

/-- Full transitions: a program step, or the external termination signal
    firing (`ctxsignal.WithTermination`, closing `ctx.Done()`). -/
def Step (outcome : Nat → Option GoErr) (s s' : SchedState) : Prop :=
  ProgStep outcome s s' ∨ (s.done = false ∧ s' = { s with done := true })

/-- Reachability by program steps only (runs where the external signal
    never fires). -/
def ReachableNC (outcome : Nat → Option GoErr) (k n : Nat) (s : SchedState) : Prop :=
  Relation.ReflTransGen (ProgStep outcome) (initState k n) s

/-- Reachability by arbitrary steps, cancellation included. -/
def Reachable (outcome : Nat → Option GoErr) (k n : Nat) (s : SchedState) : Prop :=
  Relation.ReflTransGen (Step outcome) (initState k n) s

/-- A worker holding a dispatched-but-unresolved task. -/
def wActive : WStatus → Bool
  | WStatus.busy _ => true
  | WStatus.sending _ _ => true
  | _ => false

/-- Workers parked on the `select`. -/
def wIdle : WStatus → Bool
  | WStatus.idle => true
  | _ => false

/-- Workers currently inside `c.uploadSheet`. -/
def wBusy : WStatus → Bool
  | WStatus.busy _ => true
  | _ => false

/-- Workers blocked sending on `errCh`. -/
def wSending : WStatus → Bool
  | WStatus.sending _ _ => true
  | _ => false

/-- Termination measure: every transition of the system strictly
    decreases it, so every run takes finitely many steps. -/
def wWeight : WStatus → Nat
  | WStatus.idle => 1
  | WStatus.busy _ => 3
  | WStatus.sending _ _ => 2
  | WStatus.exited => 0

/-- See `wWeight`. -/
def schedMeasure (s : SchedState) : Nat :=
  3 * s.remaining.length + (s.workers.map wWeight).sum +
    (if s.done then 0 else 1)

/-- Decidable enabledness: `true` whenever any transition (program step
    or signal) can fire from `s`. -/
def stepEnabled (s : SchedState) : Bool :=
  (decide (s.result = none) && !s.remaining.isEmpty && s.workers.any wIdle) ||
    s.workers.any wBusy ||
    (decide (s.result = none) && s.workers.any wSending) ||
    (s.done && s.workers.any wIdle) ||
    !s.done

/-- The deadlocked state reached with one worker and one sheet when the
    termination signal fires before the first hand-off and the worker
    takes the `ctx.Done()` branch: the dispatch loop is blocked forever
    on `workCh <- sheet` with no receiver and nothing pending on
    `errCh`. -/
def stuckSt : SchedState :=
  { remaining := [0]
    dispatched := 0
    waitingOn := 0
    collected := 0
    workers := [WStatus.exited]
    done := true
    result := none }

/-- Entry of `Config.Exec` (src/sheets/app.go:101-104): the worker-count
    check `if c.NWorkers < 1` runs before the templates are parsed, the
    bucket is opened, the document is fetched and the pool is started;
    the error branch therefore carries no pipeline state at all, and the
    result does not depend on the document (`k`). -/
inductive ExecResult where
  | configError (nWorkers : Int)
  | started (s0 : SchedState)
deriving Repr, DecidableEq

/-- See `ExecResult`. -/
def execStart (nWorkers : Int) (k : Nat) : ExecResult :=
  if nWorkers < 1 then ExecResult.configError nWorkers
  else ExecResult.started (initState k nWorkers.toNat)

/-- A sink whose record writes always fail, used to exercise the error
    exit path of the encoder. -/
def failSink : Sink :=
  ⟨fun _ => some (GoErr.msg ("boom"))⟩

/-- A scheduler state with one failing task about to be collected. -/
def c2s0 : SchedState :=
  { remaining := []
    dispatched := 1
    waitingOn := 1
    collected := 0
    workers := [WStatus.sending 0 (some (GoErr.msg ("boom")))]
    done := false
    result := none }

/-- Invariant of the dispatch loop over program-step runs with no task
    failures (`noFail`) and no cancellation, for a document of `k` sheets
    and a pool of `n` workers. -/
structure InvNF (k n : Nat) (s : SchedState) : Prop where
  hdone : s.done = false
  hlen : s.workers.length = n
  hnoexit : ∀ w ∈ s.workers, w ≠ WStatus.exited
  hrem : s.remaining = (List.range k).drop s.dispatched
  hdisp : s.dispatched ≤ k
  hwait : s.waitingOn = s.workers.countP wActive
  hcount : s.dispatched = s.collected + s.waitingOn
  hsend : ∀ t r, WStatus.sending t r ∈ s.workers → r = none
  hres : ∀ r, s.result = some r → r = none ∧ s.remaining = [] ∧ s.waitingOn = 0
  hres2 : s.remaining = [] → s.waitingOn = 0 → s.result = some none

/-! Helper lemmas about the CSV encoder. -/

lemma blank_eq_false_iff (record : List String) :
    blank record = false ↔ ∃ s ∈ record, s ≠ "" := by
  induction record with
  | nil => simp [blank]
  | cons s rest ih =>
    by_cases h : s = ""
    · subst h
      simp [blank, ih]
    · simp [blank, h]

lemma csvLoopG_noFail (u : Bool) (rows : List (List Cell)) :
    ∀ (idx : Nat) (acc : String),
      csvLoopG noFailSink u rows idx acc = (none, acc ++ strConcat (csvRecords u rows)) := by
  induction rows with
  | nil =>
    intro idx acc
    simp [csvLoopG, csvRecords, strConcat]
  | cons row rest ih =>
    intro idx acc
    by_cases h : blank (recordOf row)
    · simp [csvLoopG, csvRecords, h, ih]
    · simp only [csvLoopG, csvRecords, h, Bool.false_eq_true, if_false]
      show csvLoopG noFailSink u rest (idx + 1) (acc ++ writeRecord u (recordOf row)) = _
      rw [ih]
      simp [strConcat, String.append_assoc]

lemma makeCSV_eq (u : Bool) (bp : String) (rows : List (List Cell)) :
    makeCSV u bp rows = (none, strConcat (csvRecords u rows)) := by
  simp [makeCSV, makeCSVG, csvBody, wError, deferClose, csvLoopG_noFail]

lemma csvRecords_eq_filter (u : Bool) (rows : List (List Cell)) :
    csvRecords u rows =
      (rows.filter (fun row => !blank (recordOf row))).map
        (fun row => writeRecord u (recordOf row)) := by
  induction rows with
  | nil => simp [csvRecords]
  | cons row rest ih =>
    by_cases h : blank (recordOf row)
    · simp [csvRecords, h, List.filter_cons, ih]
    · simp [csvRecords, h, List.filter_cons, ih]

lemma csvRecords_eq_nil_of_all_blank (u : Bool) (rows : List (List Cell))
    (h : ∀ row ∈ rows, blank (recordOf row) = true) :
    csvRecords u rows = [] := by
  induction rows with
  | nil => simp [csvRecords]
  | cons row rest ih =>
    have hrow := h row (by simp)
    simp only [csvRecords, hrow, if_true]
    exact ih (fun r hr => h r (by simp [hr]))

lemma uploadSheet_ok (digest : String → List Nat) (f : String) (u : Bool) (bp : String)
    (rows : List (List Cell)) (lk : Lookup) (wr : Option GoErr) :
    uploadSheet digest (Except.ok f) u bp rows lk wr =
      if shouldSkip digest lk (strConcat (csvRecords u rows)) then
        Except.ok TaskOutcome.skipped
      else
        match wr with
        | some e => Except.error e
        | none => Except.ok TaskOutcome.written := by
  unfold uploadSheet
  rw [makeCSV_eq]

/-! Helper lemmas about the scheduler. -/

lemma sumMap_set (f : WStatus → Nat) :
    ∀ (l : List WStatus) (i : Nat) (a b : WStatus), l.get? i = some a →
      ((l.set i b).map f).sum + f a = (l.map f).sum + f b := by
  intro l
  induction l with
  | nil =>
    intro i a b h
    simp at h
  | cons x xs ih =>
    intro i a b h
    cases i with
    | zero =>
      simp only [List.get?_cons_zero, Option.some_inj] at h
      subst h
      simp only [List.set_cons_zero, List.map_cons, List.sum_cons]
      omega
    | succ j =>
      simp only [List.get?_cons_succ] at h
      have hj := ih j a b h
      simp only [List.set_cons_succ, List.map_cons, List.sum_cons]
      omega

lemma countP_set (p : WStatus → Bool) :
    ∀ (l : List WStatus) (i : Nat) (a b : WStatus), l.get? i = some a →
      (l.set i b).countP p + (if p a then 1 else 0) =
        l.countP p + (if p b then 1 else 0) := by
  intro l
  induction l with
  | nil =>
    intro i a b h
    simp at h
  | cons x xs ih =>
    intro i a b h
    cases i with
    | zero =>
      simp only [List.get?_cons_zero, Option.some_inj] at h
      subst h
      simp only [List.set_cons_zero, List.countP_cons]
      omega
    | succ j =>
      simp only [List.get?_cons_succ] at h
      have hj := ih j a b h
      simp only [List.set_cons_succ, List.countP_cons]
      omega

lemma invNF_init (k n : Nat) : InvNF k n (initState k n) := by
  refine ⟨rfl, by simp [initState], ?_, by simp [initState], by simp [initState],
    ?_, rfl, ?_, ?_, ?_⟩
  · intro w hw
    rw [List.eq_of_mem_replicate hw]
    simp
  · show (0 : Nat) = (List.replicate n WStatus.idle).countP wActive
    rw [List.countP_eq_zero.mpr]
    intro a ha
    rw [List.eq_of_mem_replicate ha]
    simp [wActive]
  · intro t r hmem
    have := List.eq_of_mem_replicate hmem
    cases this
  · intro r hr
    by_cases hk : k = 0
    · subst hk
      simp [initState] at hr ⊢
      exact hr.symm
    · exfalso
      simp [initState, hk] at hr
  · intro h1 _h2
    have hk : k = 0 := by
      have h2 := congrArg List.length h1
      simpa [initState] using h2
    simp [initState, hk]

lemma invNF_step (k n : Nat) (s s' : SchedState)
    (inv : InvNF k n s) (hstep : ProgStep noFail s s') : InvNF k n s' := by
  obtain ⟨hdone, hlen, hnoexit, hrem0, hdisp, hwait, hcount, hsend, hresI, hres2⟩ := inv
  cases hstep with
  | dispatch i t rest hresN hremN hw =>
    have hdr : (List.range k).drop s.dispatched = t :: rest := by
      rw [← hrem0, hremN]
    have hdr1 : (List.range k).drop (s.dispatched + 1) = rest := by
      have ht := congrArg List.tail hdr
      rw [List.tail_drop] at ht
      exact ht
    have hdlt : s.dispatched < k := by
      by_contra hcon
      have hnil : (List.range k).drop s.dispatched = [] :=
        List.drop_eq_nil_of_le (by simpa using Nat.le_of_not_lt hcon)
      rw [hnil] at hdr
      cases hdr
    have hcp := countP_set wActive s.workers i WStatus.idle (WStatus.busy t) hw
    have hcp' : (s.workers.set i (WStatus.busy t)).countP wActive =
        s.workers.countP wActive + 1 := by
      simpa [wActive] using hcp
    refine ⟨hdone, by simpa using hlen, ?_, hdr1.symm, hdlt, ?_, ?_, ?_, ?_, ?_⟩
    · intro w hwm
      rcases List.mem_or_eq_of_mem_set hwm with h | h
      · exact hnoexit w h
      · subst h
        simp
    · show s.waitingOn + 1 = (s.workers.set i (WStatus.busy t)).countP wActive
      omega
    · show s.dispatched + 1 = s.collected + (s.waitingOn + 1)
      omega
    · intro t' r hmem
      rcases List.mem_or_eq_of_mem_set hmem with h | h
      · exact hsend t' r h
      · cases h
    · intro r hr
      have hr' : s.result = some r := hr
      rw [hresN] at hr'
      cases hr'
    · intro h1 h2
      have h2' : s.waitingOn + 1 = 0 := h2
      omega
  | compute i t hw =>
    have hcp := countP_set wActive s.workers i (WStatus.busy t)
      (WStatus.sending t (noFail t)) hw
    have hcp' : (s.workers.set i (WStatus.sending t (noFail t))).countP wActive =
        s.workers.countP wActive := by
      simpa [wActive, noFail] using hcp
    refine ⟨hdone, by simpa using hlen, ?_, hrem0, hdisp, ?_, hcount, ?_, hresI, hres2⟩
    · intro w hwm
      rcases List.mem_or_eq_of_mem_set hwm with h | h
      · exact hnoexit w h
      · subst h
        simp
    · show s.waitingOn = (s.workers.set i (WStatus.sending t (noFail t))).countP wActive
      omega
    · intro t' r hmem
      rcases List.mem_or_eq_of_mem_set hmem with h | h
      · exact hsend t' r h
      · injection h with h1 h2
  | collectOk i t hresN hw =>
    have hcp := countP_set wActive s.workers i (WStatus.sending t none) WStatus.idle hw
    have hcp' : (s.workers.set i WStatus.idle).countP wActive + 1 =
        s.workers.countP wActive := by
      simpa [wActive] using hcp
    have hge : 1 ≤ s.waitingOn := by
      rw [hwait]
      omega
    refine ⟨hdone, by simpa using hlen, ?_, hrem0, hdisp, ?_, ?_, ?_, ?_, ?_⟩
    · intro w hwm
      rcases List.mem_or_eq_of_mem_set hwm with h | h
      · exact hnoexit w h
      · subst h
        simp
    · show s.waitingOn - 1 = (s.workers.set i WStatus.idle).countP wActive
      rw [hwait]
      omega
    · show s.dispatched = s.collected + 1 + (s.waitingOn - 1)
      omega
    · intro t' r hmem
      rcases List.mem_or_eq_of_mem_set hmem with h | h
      · exact hsend t' r h
      · cases h
    · intro r hr
      have hr' : (if s.remaining = [] ∧ s.waitingOn - 1 = 0
          then some (none : Option GoErr) else none) = some r := hr
      by_cases hc : s.remaining = [] ∧ s.waitingOn - 1 = 0
      · rw [if_pos hc] at hr'
        injection hr' with hr1
        exact ⟨hr1.symm, hc.1, hc.2⟩
      · rw [if_neg hc] at hr'
        cases hr'
    · intro h1 h2
      have h1' : s.remaining = [] := h1
      have h2' : s.waitingOn - 1 = 0 := h2
      show (if s.remaining = [] ∧ s.waitingOn - 1 = 0
          then some (none : Option GoErr) else none) = some none
      rw [if_pos ⟨h1', h2'⟩]
  | collectErr i t e hresN hw =>
    have := hsend t (some e) (List.get?_mem hw)
    cases this
  | workerExit i hdoneN hw =>
    rw [hdone] at hdoneN
    cases hdoneN

lemma invNF_reachable (k n : Nat) (s : SchedState)
    (h : ReachableNC noFail k n s) : InvNF k n s := by
  induction h with
  | refl => exact invNF_init k n
  | tail _hab hbc ih => exact invNF_step k n _ _ ih hbc

lemma progressNF (k n : Nat) (s : SchedState) (hn : 1 ≤ n)
    (inv : InvNF k n s) (hres : s.result = none) :
    ∃ s', ProgStep noFail s s' := by
  by_cases hs : s.workers.any wSending = true
  · obtain ⟨w, hmem, hww⟩ := List.any_eq_true.mp hs
    cases w with
    | sending t r =>
      have hr : r = none := inv.hsend t r hmem
      subst hr
      obtain ⟨i, hi⟩ := List.mem_iff_get?.mp hmem
      exact ⟨_, ProgStep.collectOk s i t hres hi⟩
    | idle => simp [wSending] at hww
    | busy t => simp [wSending] at hww
    | exited => simp [wSending] at hww
  · by_cases hb : s.workers.any wBusy = true
    · obtain ⟨w, hmem, hww⟩ := List.any_eq_true.mp hb
      cases w with
      | busy t =>
        obtain ⟨i, hi⟩ := List.mem_iff_get?.mp hmem
        exact ⟨_, ProgStep.compute s i t hi⟩
      | idle => simp [wBusy] at hww
      | sending t r => simp [wBusy] at hww
      | exited => simp [wBusy] at hww
    · have hallidle : ∀ w ∈ s.workers, w = WStatus.idle := by
        intro w hw
        cases w with
        | idle => rfl
        | busy t => exact absurd (List.any_eq_true.mpr ⟨_, hw, rfl⟩) hb
        | sending t r => exact absurd (List.any_eq_true.mpr ⟨_, hw, rfl⟩) hs
        | exited => exact absurd rfl (inv.hnoexit _ hw)
      have hcp : s.workers.countP wActive = 0 := by
        rw [List.countP_eq_zero]
        intro a ha
        rw [hallidle a ha]
        simp [wActive]
      have hw0 : s.waitingOn = 0 := by rw [inv.hwait, hcp]
      have hremne : s.remaining ≠ [] := by
        intro hnil
        rw [inv.hres2 hnil hw0] at hres
        cases hres
      obtain ⟨t, rest, hrem⟩ : ∃ t rest, s.remaining = t :: rest := by
        cases hr : s.remaining with
        | nil => exact absurd hr hremne
        | cons a l => exact ⟨a, l, rfl⟩
      cases hwl : s.workers with
      | nil =>
        exfalso
        have hn0 : n = 0 := by
          rw [← inv.hlen, hwl]
          rfl
        omega
      | cons w0 ws =>
        have hw0i : w0 = WStatus.idle := hallidle w0 (by rw [hwl]; simp)
        have hg : s.workers.get? 0 = some WStatus.idle := by
          rw [hwl, hw0i]
          rfl
        exact ⟨_, ProgStep.dispatch s 0 t rest hres hrem hg⟩

lemma schedMeasure_step (outcome : Nat → Option GoErr) (s s' : SchedState)
    (h : Step outcome s s') : schedMeasure s' < schedMeasure s := by
  cases h with
  | inr hc =>
    obtain ⟨hdf, rfl⟩ := hc
    simp [schedMeasure, hdf]
  | inl hp =>
    cases hp with
    | dispatch i t rest hres hrem hw =>
      have hs := sumMap_set wWeight s.workers i WStatus.idle (WStatus.busy t) hw
      simp only [wWeight] at hs
      show 3 * rest.length + ((s.workers.set i (WStatus.busy t)).map wWeight).sum +
          (if s.done then 0 else 1) <
        3 * s.remaining.length + (s.workers.map wWeight).sum + (if s.done then 0 else 1)
      rw [hrem]
      simp only [List.length_cons]
      omega
    | compute i t hw =>
      have hs := sumMap_set wWeight s.workers i (WStatus.busy t)
        (WStatus.sending t (outcome t)) hw
      simp only [wWeight] at hs
      show 3 * s.remaining.length +
          ((s.workers.set i (WStatus.sending t (outcome t))).map wWeight).sum +
          (if s.done then 0 else 1) <
        3 * s.remaining.length + (s.workers.map wWeight).sum + (if s.done then 0 else 1)
      omega
    | collectOk i t hres hw =>
      have hs := sumMap_set wWeight s.workers i (WStatus.sending t none) WStatus.idle hw
      simp only [wWeight] at hs
      show 3 * s.remaining.length + ((s.workers.set i WStatus.idle).map wWeight).sum +
          (if s.done then 0 else 1) <
        3 * s.remaining.length + (s.workers.map wWeight).sum + (if s.done then 0 else 1)
      omega
    | collectErr i t e hres hw =>
      have hs := sumMap_set wWeight s.workers i (WStatus.sending t (some e)) WStatus.idle hw
      simp only [wWeight] at hs
      show 3 * s.remaining.length + ((s.workers.set i WStatus.idle).map wWeight).sum +
          (if s.done then 0 else 1) <
        3 * s.remaining.length + (s.workers.map wWeight).sum + (if s.done then 0 else 1)
      omega
    | workerExit i hdone hw =>
      have hs := sumMap_set wWeight s.workers i WStatus.idle WStatus.exited hw
      simp only [wWeight] at hs
      show 3 * s.remaining.length + ((s.workers.set i WStatus.exited).map wWeight).sum +
          (if s.done then 0 else 1) <
        3 * s.remaining.length + (s.workers.map wWeight).sum + (if s.done then 0 else 1)
      omega

lemma step_stepEnabled (outcome : Nat → Option GoErr) (s s' : SchedState)
    (h : Step outcome s s') : stepEnabled s = true := by
  cases h with
  | inr hc =>
    simp [stepEnabled, hc.1]
  | inl hp =>
    cases hp with
    | dispatch i t rest hres hrem hw =>
      have ha : s.workers.any wIdle = true :=
        List.any_eq_true.mpr ⟨_, List.get?_mem hw, rfl⟩
      simp [stepEnabled, hres, hrem, ha]
    | compute i t hw =>
      have ha : s.workers.any wBusy = true :=
        List.any_eq_true.mpr ⟨_, List.get?_mem hw, rfl⟩
      simp [stepEnabled, ha]
    | collectOk i t hres hw =>
      have ha : s.workers.any wSending = true :=
        List.any_eq_true.mpr ⟨_, List.get?_mem hw, rfl⟩
      simp [stepEnabled, hres, ha]
    | collectErr i t e hres hw =>
      have ha : s.workers.any wSending = true :=
        List.any_eq_true.mpr ⟨_, List.get?_mem hw, rfl⟩
      simp [stepEnabled, hres, ha]
    | workerExit i hdone hw =>
      have ha : s.workers.any wIdle = true :=
        List.any_eq_true.mpr ⟨_, List.get?_mem hw, rfl⟩
      simp [stepEnabled, hdone, ha]

lemma stuck_reach : Reachable noFail 1 1 stuckSt := by
  have h1 : Step noFail (initState 1 1) { initState 1 1 with done := true } :=
    Or.inr ⟨rfl, rfl⟩
  have h2 : ProgStep noFail { initState 1 1 with done := true }
      { { initState 1 1 with done := true } with
          workers := ({ initState 1 1 with done := true } : SchedState).workers.set 0
            WStatus.exited } :=
    ProgStep.workerExit _ 0 rfl rfl
  have hEq : ({ { initState 1 1 with done := true } with
      workers := ({ initState 1 1 with done := true } : SchedState).workers.set 0
        WStatus.exited } : SchedState) = stuckSt := by
    simp [initState, stuckSt]
    decide
  exact Relation.ReflTransGen.tail
    (Relation.ReflTransGen.tail Relation.ReflTransGen.refl h1)
    (Or.inl (hEq ▸ h2))


/-! The claims. -/

/-- C1: for every document with `k` sheets and every configured worker
    count `n ≥ 1`, a run with no task failures (and no cancellation)
    dispatches every sheet exactly once (the remaining list is always the
    undispatched suffix of the `k` sheets, popped head-first), collects
    exactly one result per sheet (`collected = dispatched = k` on normal
    return), and the dispatch loop terminates normally (returns `nil`)
    exactly when the remaining-sheets list is empty and the
    outstanding-task counter is zero; moreover from every reachable
    non-returned state a step is enabled and every step decreases a
    finite measure, so the run terminates. -/
theorem c1_worker_pool_completes (k n : Nat) (hn : 1 ≤ n) (s : SchedState)
    (hreach : ReachableNC noFail k n s) :
    (∀ r, s.result = some r →
        r = none ∧ s.remaining = [] ∧ s.waitingOn = 0 ∧
          s.dispatched = k ∧ s.collected = k) ∧
      (s.remaining = [] → s.waitingOn = 0 → s.result = some none) ∧
      s.remaining = (List.range k).drop s.dispatched ∧
      (s.result = none → ∃ s2, ProgStep noFail s s2) ∧
      (∀ s2 s3 : SchedState, Step noFail s2 s3 → schedMeasure s3 < schedMeasure s2) := by
  have inv := invNF_reachable k n s hreach
  refine ⟨?_, inv.hres2, inv.hrem, progressNF k n s hn inv, schedMeasure_step noFail⟩
  intro r hr
  obtain ⟨h1, h2, h3⟩ := inv.hres r hr
  have hdk : s.dispatched = k := by
    have hnil : (List.range k).drop s.dispatched = [] := by
      rw [← inv.hrem]
      exact h2
    have hlen0 := congrArg List.length hnil
    simp [List.length_drop] at hlen0
    have := inv.hdisp
    omega
  have hc := inv.hcount
  exact ⟨h1, h2, h3, hdk, by omega⟩

theorem c1_worker_pool_completes_witness :
    ∃ s2, ProgStep noFail (initState 1 1) s2 :=
  (c1_worker_pool_completes 1 1 (by decide) (initState 1 1)
    Relation.ReflTransGen.refl).2.2.2.1 (by decide)

/-- C2: once the dispatch loop has returned a result, no further step
    dispatches a sheet or changes the returned value (errors of other
    concurrently failing tasks are discarded: their `collect` transitions
    are disabled); the returned value becomes `some (some e)` only by
    collecting exactly that error from a worker; and collecting an error
    from a sending worker is always possible while the loop runs, and it
    aborts the run with precisely that error. -/
theorem c2_first_error_wins (outcome : Nat → Option GoErr) (s s' : SchedState) :
    (∀ r, s.result = some r → Step outcome s s' →
        s'.result = some r ∧ s'.remaining = s.remaining ∧
          s'.dispatched = s.dispatched) ∧
      (∀ e, s.result = none → Step outcome s s' → s'.result = some (some e) →
        ∃ i t, s.workers.get? i = some (WStatus.sending t (some e))) ∧
      (∀ i t e, s.result = none →
        s.workers.get? i = some (WStatus.sending t (some e)) →
        Step outcome s
          { s with workers := s.workers.set i WStatus.idle
                   waitingOn := s.waitingOn - 1
                   collected := s.collected + 1
                   result := some (some e) }) := by
  refine ⟨?_, ?_, ?_⟩
  · intro r hr hstep
    cases hstep with
    | inr hc =>
      obtain ⟨hdf, rfl⟩ := hc
      exact ⟨hr, rfl, rfl⟩
    | inl hp =>
      cases hp with
      | dispatch i t rest hresN hremN hw =>
        rw [hresN] at hr
        cases hr
      | compute i t hw => exact ⟨hr, rfl, rfl⟩
      | collectOk i t hresN hw =>
        rw [hresN] at hr
        cases hr
      | collectErr i t e hresN hw =>
        rw [hresN] at hr
        cases hr
      | workerExit i hdone hw => exact ⟨hr, rfl, rfl⟩
  · intro e hnone hstep hres2
    cases hstep with
    | inr hc =>
      obtain ⟨hdf, rfl⟩ := hc
      have h0 : s.result = some (some e) := hres2
      rw [hnone] at h0
      cases h0
    | inl hp =>
      cases hp with
      | dispatch i t rest hresN hremN hw =>
        have h0 : s.result = some (some e) := hres2
        rw [hnone] at h0
        cases h0
      | compute i t hw =>
        have h0 : s.result = some (some e) := hres2
        rw [hnone] at h0
        cases h0
      | collectOk i t hresN hw =>
        have h0 : (if s.remaining = [] ∧ s.waitingOn - 1 = 0
            then some (none : Option GoErr) else none) = some (some e) := hres2
        by_cases hc : s.remaining = [] ∧ s.waitingOn - 1 = 0
        · rw [if_pos hc] at h0
          injection h0 with h1
          cases h1
        · rw [if_neg hc] at h0
          cases h0
      | collectErr i t e0 hresN hw =>
        have h0 : some (some e0) = some (some e) := hres2
        injection h0 with h1
        injection h1 with h2
        subst h2
        exact ⟨i, t, hw⟩
      | workerExit i hdone hw =>
        have h0 : s.result = some (some e) := hres2
        rw [hnone] at h0
        cases h0
  · intro i t e hnone hw
    exact Or.inl (ProgStep.collectErr s i t e hnone hw)

theorem c2_first_error_wins_witness :
    Step noFail c2s0
      { c2s0 with workers := c2s0.workers.set 0 WStatus.idle
                  waitingOn := c2s0.waitingOn - 1
                  collected := c2s0.collected + 1
                  result := some (some (GoErr.msg ("boom"))) } :=
  (c2_first_error_wins noFail c2s0 c2s0).2.2 0 0 (GoErr.msg ("boom")) rfl rfl

/-- C3: the claimed bounded-time return after cancellation fails on the
    code.  Every possible transition is captured by the decidable
    enabledness check (first conjunct); yet with one worker and one
    sheet, after the signal fires and the worker takes the `ctx.Done()`
    branch, the system reaches `stuckSt`: the loop has not returned
    (`result = none`), one sheet is still undispatched, and no
    transition is enabled — the dispatch loop's `select` has no
    `ctx.Done()` case and blocks forever on `workCh <- sheet` with no
    receiver, so the scheduler never returns. -/
theorem c3_cancellation_deadlock :
    (∀ s s' : SchedState, Step noFail s s' → stepEnabled s = true) ∧
      Reachable noFail 1 1 stuckSt ∧
      stuckSt.result = none ∧
      stuckSt.remaining = [0] ∧
      stepEnabled stuckSt = false :=
  ⟨fun s s' h => step_stepEnabled noFail s s' h, stuck_reach, rfl, rfl, by decide⟩

theorem c3_cancellation_deadlock_witness :
    stepEnabled (initState 1 1) = true :=
  c3_cancellation_deadlock.1 (initState 1 1) { initState 1 1 with done := true }
    (Or.inr ⟨rfl, rfl⟩)

/-- C4: the skip check skips exactly when the attribute lookup succeeds,
    carries a checksum, and that checksum equals the digest of the
    payload; a failed lookup (or a missing checksum) never skips, and the
    lookup failure is not propagated — the upload proceeds to the write,
    returning `written` on success and the write's own error on
    failure. -/
theorem c4_skip_check (digest : String → List Nat) (f payload : String) (u : Bool)
    (bp : String) (rows : List (List Cell)) (e we : GoErr) (m : List Nat)
    (lk : Lookup) (wr : Option GoErr) :
    shouldSkip digest (Lookup.failed e) payload = false ∧
      shouldSkip digest (Lookup.found none) payload = false ∧
      (shouldSkip digest (Lookup.found (some m)) payload = true ↔ digest payload = m) ∧
      uploadSheet digest (Except.ok f) u bp rows (Lookup.failed e) none =
        Except.ok TaskOutcome.written ∧
      uploadSheet digest (Except.ok f) u bp rows (Lookup.failed e) (some we) =
        Except.error we ∧
      (uploadSheet digest (Except.ok f) u bp rows lk wr = Except.ok TaskOutcome.skipped ↔
        ∃ mm, lk = Lookup.found (some mm) ∧ digest (makeCSV u bp rows).2 = mm) := by
  refine ⟨rfl, rfl, by simp [shouldSkip], ?_, ?_, ?_⟩
  · rw [uploadSheet_ok]
    simp [shouldSkip]
  · rw [uploadSheet_ok]
    simp [shouldSkip]
  · rw [uploadSheet_ok, makeCSV_eq]
    cases lk with
    | failed e0 =>
      simp [shouldSkip]
      cases wr <;> simp
    | found om =>
      cases om with
      | none =>
        simp [shouldSkip]
        cases wr <;> simp
      | some m0 =>
        by_cases hd : digest (strConcat (csvRecords u rows)) = m0
        · simp [shouldSkip, hd]
        · simp [shouldSkip, hd]
          cases wr <;> simp

theorem c4_skip_check_witness :
    uploadSheet (fun s0 => [s0.length]) (Except.ok ("f.csv")) false ("")
        [[Cell.mk ("a")]] (Lookup.failed (GoErr.msg ("no such key"))) none =
      Except.ok TaskOutcome.written :=
  (c4_skip_check (fun s0 => [s0.length]) ("f.csv") ("p") false ("") [[Cell.mk ("a")]]
    (GoErr.msg ("no such key")) (GoErr.msg ("w")) []
    (Lookup.failed (GoErr.msg ("no such key"))) none).2.2.2.1

/-- C5: the encoder's output is exactly the concatenation of one CSV
    record per row, where the emitted record list is the in-order image
    of the rows whose record is not all-empty (blank rows are omitted
    entirely, contributing no bytes); when every row has a non-empty
    cell, the number of emitted records equals the number of input
    rows. -/
theorem c5_blank_row_omission (u : Bool) (bp : String) (rows : List (List Cell)) :
    (makeCSV u bp rows).2 = strConcat (csvRecords u rows) ∧
      csvRecords u rows =
        (rows.filter (fun row => !blank (recordOf row))).map
          (fun row => writeRecord u (recordOf row)) ∧
      ((∀ row ∈ rows, ∃ c ∈ row, c.value ≠ "") →
        (csvRecords u rows).length = rows.length) := by
  refine ⟨by rw [makeCSV_eq], csvRecords_eq_filter u rows, ?_⟩
  intro hall
  rw [csvRecords_eq_filter, List.length_map]
  have hfe : rows.filter (fun row => !blank (recordOf row)) = rows := by
    rw [List.filter_eq_self]
    intro row hrow
    have hb : blank (recordOf row) = false := by
      rw [blank_eq_false_iff]
      obtain ⟨c, hc, hcv⟩ := hall row hrow
      exact ⟨c.value, List.mem_map.mpr ⟨c, hc, rfl⟩, hcv⟩
    simp [hb]
  rw [hfe]

theorem c5_blank_row_omission_witness :
    (csvRecords false [[Cell.mk ("a")], [Cell.mk ("b")]]).length =
      ([[Cell.mk ("a")], [Cell.mk ("b")]] : List (List Cell)).length :=
  (c5_blank_row_omission false ("") [[Cell.mk ("a")], [Cell.mk ("b")]]).2.2 (by decide)

/-- C6: the encoder is deterministic: its output is a pure function of
    the CRLF setting and the rows.  In particular `buf.Reset()` makes the
    result independent of the reused buffer's previous contents, and
    encoding the same rows twice yields identical bytes. -/
theorem c6_deterministic (u : Bool) (bp bp2 : String) (rows : List (List Cell)) :
    makeCSV u bp rows = makeCSV u bp2 rows ∧
      makeCSV u bp rows = makeCSV u bp rows :=
  ⟨rfl, rfl⟩

theorem c6_deterministic_witness :
    makeCSV false ("leftover") [[Cell.mk ("x")]] = makeCSV false ("") [[Cell.mk ("x")]] :=
  (c6_deterministic false ("leftover") ("") [[Cell.mk ("x")]]).1

/-- C7: a worker count below one is rejected by `Config.Exec` with the
    configuration error before any work starts: for every document size
    `k` the result is the bare `configError`, which carries no scheduler
    state — no pool is started, nothing is dispatched, nothing is
    written. -/
theorem c7_invalid_worker_count (nWorkers : Int) (k : Nat) (h : nWorkers < 1) :
    execStart nWorkers k = ExecResult.configError nWorkers := by
  simp [execStart, h]

theorem c7_invalid_worker_count_witness :
    execStart 0 5 = ExecResult.configError 0 :=
  c7_invalid_worker_count 0 5 (by decide)

/-- C8: the deferred-close aggregation: an earlier error is never
    discarded or replaced by the release failure; a release failure with
    no earlier error is promoted (wrapped as "problem closing") to the
    reported result; and on every exit path of the encoder — early
    return on a write failure included — the reported error is
    `deferClose` of the body's error and the writer's sticky error. -/
theorem c8_defer_close (sink : Sink) (u : Bool) (bp : String) (rows : List (List Cell)) :
    (∀ (e0 : GoErr) (f0 : Option GoErr), deferClose (some e0) f0 = some e0) ∧
      (∀ e0 : GoErr, deferClose none (some e0) =
        some (GoErr.wrapped ("problem closing") e0)) ∧
      deferClose none none = none ∧
      (makeCSVG sink u bp rows).1 =
        deferClose (csvBody sink u rows).1 (wError sink u rows) ∧
      (∀ e0, (csvBody sink u rows).1 = some e0 → (makeCSVG sink u bp rows).1 = some e0) := by
  refine ⟨?_, fun e0 => rfl, rfl, rfl, ?_⟩
  · intro e0 f0
    cases f0 <;> rfl
  · intro e0 he
    show deferClose (csvBody sink u rows).1 (wError sink u rows) = some e0
    rw [he]
    cases hw2 : wError sink u rows <;> rfl

theorem c8_defer_close_witness :
    (makeCSVG failSink false ("") [[Cell.mk ("a")]]).1 = some (GoErr.msg ("boom")) :=
  (c8_defer_close failSink false ("") [[Cell.mk ("a")]]).2.2.2.2 (GoErr.msg ("boom"))
    (by decide)

/-- C9: the post-pipeline notifier (modelled from the spec, the code not
    being under src/) is invoked exactly when the changed-paths list is
    non-empty and a distribution target is configured, and each path is
    normalized to begin with a single leading separator before being
    escaped: `reports/Q1.csv` becomes `/reports/Q1.csv`, and every
    normalized path starts with the separator. -/
theorem c9_notifier (ps : List String) (dt : Option String) (esc : String → String)
    (p d : String) :
    notify [] dt esc = none ∧
      notify ps none esc = none ∧
      (notify ps dt esc).isSome = (!ps.isEmpty && dt.isSome) ∧
      normalizeInvalidationPath ("reports/Q1.csv") = ("/reports/Q1.csv") ∧
      (normalizeInvalidationPath p).data.head? = some '/' ∧
      notify ps (some d) esc =
        (if ps.isEmpty then none
          else some (ps.map (fun q => esc (normalizeInvalidationPath q)))) := by
  refine ⟨?_, rfl, ?_, by decide, ?_, ?_⟩
  · cases dt <;> rfl
  · cases dt <;> cases ps <;> rfl
  · by_cases h : p.data.head? = some '/'
    · unfold normalizeInvalidationPath
      rw [if_pos h]
      exact h
    · unfold normalizeInvalidationPath
      rw [if_neg h, String.data_append]
      rfl
  · cases ps <;> rfl

theorem c9_notifier_witness :
    normalizeInvalidationPath ("reports/Q1.csv") = ("/reports/Q1.csv") :=
  (c9_notifier [] none id ("") ("")).2.2.2.1

/-- C10: a zero-cell row yields the empty record, which is blank (the
    all-empty test holds vacuously) and therefore omitted; encoding an
    empty rows sequence, or one consisting only of blank rows, yields
    empty byte output with no error. -/
theorem c10_blank_and_empty (u : Bool) (bp : String) (rows : List (List Cell)) :
    blank [] = true ∧
      recordOf [] = [] ∧
      makeCSV u bp [] = (none, "") ∧
      ((∀ row ∈ rows, blank (recordOf row) = true) → makeCSV u bp rows = (none, "")) := by
  refine ⟨rfl, rfl, by rw [makeCSV_eq]; rfl, ?_⟩
  intro h
  rw [makeCSV_eq, csvRecords_eq_nil_of_all_blank u rows h]
  rfl

theorem c10_blank_and_empty_witness :
    makeCSV false ("x") [[], [Cell.mk ("")]] = (none, "") :=
  (c10_blank_and_empty false ("x") [[], [Cell.mk ("")]]).2.2.2 (by decide)

end SheetsSave
